import Mathlib

/-!
Shallow embedding of the libimg-editor shell (`src/main.py`) and the parts of
the `libimg` image model it drives.  Pure state: an `ImageWidget` holds an
optional `Image` (a pixel grid plus a format tag) and an edit-mode flag.
Python-level partiality (ZeroDivisionError, IndexError) is modelled with
`Option`: a `none` result of `draw_pixel` is an uncaught exception.
-/

namespace LibimgEditor

/-- Python integer floor division `a // b`; `none` models `ZeroDivisionError`. -/
def pyDiv (a b : Int) : Option Int :=
  if b = 0 then none else some (Int.fdiv a b)

/-- Resolve a Python sequence index of length `len` at (possibly negative)
index `i`: nonnegative indices must be `< len`, negative indices count from the
end (`len + i`); `none` models `IndexError`. -/
def pyIdx (len : Nat) (i : Int) : Option Nat :=
  if 0 ≤ i then
    if i < (len : Int) then some i.toNat else none
  else
    if 0 ≤ (len : Int) + i then some ((len : Int) + i).toNat else none

/-- Python `l[i] = v` on a list, with Python index semantics. -/
def pySet (l : List α) (i : Int) (v : α) : Option (List α) :=
  (pyIdx l.length i).map (fun n => l.set n v)

/-- Modelled from the spec: the `libimg` `Image` (the spec's ImageModel over a
PixelBuffer) is not under `src/`; per §3 it is a row-major grid of pixel
values together with a format tag.  Accessors follow §4.3. -/
structure Image where
  pixels : List (List Nat)
  format : Nat
deriving DecidableEq, Repr

/-- Modelled from the spec: the single defined format tag (`Bitonal`,
serialized as byte 0 per the §8 example scenario). -/
def Image.Format_BW : Nat := 0

/-- Modelled from the spec: height = number of rows of the grid. -/
def Image.get_height (img : Image) : Nat := img.pixels.length

/-- Modelled from the spec: width = number of values in a row (every row has
exactly `width` elements by the PixelBuffer invariant; an empty grid has
width 0). -/
def Image.get_width (img : Image) : Nat := (img.pixels.headD []).length

/-- Modelled from the spec: the format accessor. -/
def Image.get_image_format (img : Image) : Nat := img.format

/-- Modelled from the spec: `to_array` exposes the full row-major grid. -/
def Image.to_array (img : Image) : List (List Nat) := img.pixels

/-- The PixelBuffer shape invariant of spec §3: every row has exactly `width`
elements. -/
def Image.Rectangular (img : Image) : Prop :=
  ∀ r ∈ img.pixels, r.length = img.get_width

instance (img : Image) : Decidable img.Rectangular :=
  inferInstanceAs (Decidable (∀ r ∈ img.pixels, r.length = img.get_width))

/-- The state of `ImageWidget` (src/main.py:119-124): an optional loaded
image and the edit-mode flag (rendering state `_qimage`/`_label` is
display-only and out of the core model). -/
structure ImageWidget where
  image : Option Image
  edit_mode : Bool
deriving DecidableEq, Repr

/-- `ImageWidget.set_image` (src/main.py:138-140); `_draw_image` only
re-renders. -/
def ImageWidget.set_image (w : ImageWidget) (img : Image) : ImageWidget :=
  { w with image := some img }

/-- `ImageWidget.set_edit_mode` (src/main.py:142-143). -/
def ImageWidget.set_edit_mode (w : ImageWidget) (mode : Bool) : ImageWidget :=
  { w with edit_mode := mode }

/-- `ImageWidget._draw_pixel` (src/main.py:164-182), the pointer-event
handler reached from both `mouseMoveEvent` and `mousePressEvent`.
`x`/`y` are `event.pos().x()`/`event.pos().y()`.  A `none` result is an
uncaught Python exception (ZeroDivisionError when `300 // height = 0` or
`height = 0`, IndexError from out-of-range list indexing). -/
def ImageWidget.draw_pixel (w : ImageWidget) (x y : Int) : Option ImageWidget :=
  match w.image with
  | none => some w
  | some img =>
    if w.edit_mode = false then some w
    else
      match pyDiv 300 (img.get_height : Int) with
      | none => none
      | some pixel_size =>
        match pyDiv (x - 9) pixel_size, pyDiv (y - 9) pixel_size with
        | some x_pos, some y_pos =>
          if x_pos ≥ (img.get_width : Int) ∨ y_pos ≥ (img.get_height : Int) then
            some w
          else
            match pyIdx img.to_array.length y_pos with
            | none => none
            | some r =>
              match pySet (img.to_array.getD r []) x_pos 1 with
              | none => none
              | some newRow =>
                some { w with
                  image := some ⟨img.to_array.set r newRow, img.get_image_format⟩ }
        | _, _ => none

/-- A pixel read on the widget's current image (row-major, nonnegative
indices), for stating properties. -/
def ImageWidget.getPixel (w : ImageWidget) (r c : Nat) : Option Nat :=
  match w.image with
  | none => none
  | some img => (img.pixels.getD r [])[c]?

/-- `MainWindow.new_file_action` (src/main.py:84-97) restricted to the
widget state it changes: on an accepted dialog, build the all-zero pixel
array ([[0 for _ in range(width)] for _ in range(height)] when the chosen
format is `Format_BW`, the only offered format), set the image and enable
edit mode. -/
def new_file_action (w : ImageWidget) (accepted : Bool)
    (width height fmt : Nat) : ImageWidget :=
  if accepted then
    let pixel_array :=
      if fmt = Image.Format_BW then
        (List.range height).map (fun _ => (List.range width).map (fun _ => 0))
      else []
    (w.set_image ⟨pixel_array, fmt⟩).set_edit_mode true
  else w

/-- `MainWindow.open_file_action` (src/main.py:61-82): `filepath = none`
models a cancelled file dialog; `from_file` is the `libimg` decoder
(modelled from the spec: `Image.from_file` wraps Codec.decode and raises
`ValueError` on `MalformedHeader` / `TruncatedData` / `InvalidPixelValue`,
here an `Except.error`).  On a decode error the handler only shows a
message box, leaving the widget untouched. -/
def open_file_action (from_file : String → Except String Image)
    (w : ImageWidget) (filepath : Option String) : ImageWidget :=
  match filepath with
  | none => w
  | some p =>
    match from_file p with
    | Except.ok img => w.set_image img
    | Except.error _ => w

/-- `MainWindow.save_file_action` (src/main.py:99-116): reads the image and
writes it to disk; the widget state is unchanged. -/
def save_file_action (w : ImageWidget) (filepath : Option String) :
    ImageWidget := w

/-- Modelled from Qt (external toolkit): `QSpinBox.value()` always lies
within the configured `setRange` bounds — out-of-range input is clamped. -/
structure QSpinBox where
  minimum : Int
  maximum : Int
  raw : Int

/-- Modelled from Qt: the clamped current value of a spin box. -/
def QSpinBox.value (s : QSpinBox) : Int := max s.minimum (min s.maximum s.raw)

/-- `NewFileDialog._width_spinbox` with `setRange(1, 65535)`
(src/main.py:199-200); `raw` is whatever the user typed. -/
def NewFileDialog.width_spinbox (raw : Int) : QSpinBox := ⟨1, 65535, raw⟩

/-- `NewFileDialog._height_spinbox` with `setRange(1, 65535)`
(src/main.py:202-203). -/
def NewFileDialog.height_spinbox (raw : Int) : QSpinBox := ⟨1, 65535, raw⟩

/-- `NewFileDialog.get_image_width` (src/main.py:221-222). -/
def NewFileDialog.get_image_width (raw : Int) : Int :=
  (NewFileDialog.width_spinbox raw).value

/-- `NewFileDialog.get_image_height` (src/main.py:224-225). -/
def NewFileDialog.get_image_height (raw : Int) : Int :=
  (NewFileDialog.height_spinbox raw).value

/-- The shell events that can touch the widget state. -/
inductive ShellEvent where
  | newFile (accepted : Bool) (width height fmt : Nat)
  | openFile (filepath : Option String)
  | saveFile (filepath : Option String)
  | pointer (x y : Int)
deriving DecidableEq, Repr

/-- One shell event.  A pointer event that raises inside `_draw_pixel`
leaves the widget state as it was (the mutation and reassignment at
src/main.py:180-181 happen after every point that can raise). -/
def step (from_file : String → Except String Image)
    (w : ImageWidget) (e : ShellEvent) : ImageWidget :=
  match e with
  | .newFile a wd ht fmt => new_file_action w a wd ht fmt
  | .openFile fp => open_file_action from_file w fp
  | .saveFile fp => save_file_action w fp
  | .pointer x y => (w.draw_pixel x y).getD w

/-- A whole event sequence. -/
def run (from_file : String → Except String Image)
    (w : ImageWidget) (evs : List ShellEvent) : ImageWidget :=
  evs.foldl (step from_file) w

/-- A sequence of pointer events through `_draw_pixel` alone, propagating
exceptions. -/
def runPointerEvents (w : ImageWidget) : List (Int × Int) → Option ImageWidget
  | [] => some w
  | (x, y) :: rest =>
    match w.draw_pixel x y with
    | none => none
    | some w' => runPointerEvents w' rest

/-! ## Helper lemmas -/

lemma pyIdx_lt {len : Nat} {i : Int} {n : Nat} (h : pyIdx len i = some n) :
    n < len := by
  unfold pyIdx at h
  split at h <;> split at h <;> simp_all <;> omega

lemma pyIdx_nonneg {len : Nat} {i : Int} (h0 : 0 ≤ i) (hlt : i < (len : Int)) :
    pyIdx len i = some i.toNat := by
  simp [pyIdx, h0, hlt]

lemma fdiv_natCast (m n : Nat) :
    Int.fdiv (m : Int) (n : Int) = ((m / n : Nat) : Int) := by
  rw [Int.fdiv_eq_tdiv (by positivity) (by positivity), Int.ofNat_tdiv]

lemma headD_length_set {l : List (List Nat)} {r : Nat} {v : List Nat}
    (hlen : v.length = (l.getD r []).length) :
    ((l.set r v).headD []).length = (l.headD []).length := by
  cases l with
  | nil => simp
  | cons a tl =>
    cases r with
    | zero => simpa using hlen
    | succ n => simp

lemma getD_set_self {l : List (List Nat)} {r : Nat} {v : List Nat}
    (h : r < l.length) : (l.set r v).getD r [] = v := by
  simp [List.getD_eq_getElem?_getD, List.getElem?_set_self h]

lemma getD_set_ne {l : List (List Nat)} {r r0 : Nat} {v : List Nat}
    (h : r ≠ r0) : (l.set r v).getD r0 [] = l.getD r0 [] := by
  simp [List.getD_eq_getElem?_getD, List.getElem?_set_ne h]

lemma draw_pixel_paint (w : ImageWidget) (img : Image) (x y col row : Int)
    (ps : Nat)
    (himg : w.image = some img) (hedit : w.edit_mode = true)
    (hrect : img.Rectangular)
    (hps : ps = 300 / img.get_height) (hps0 : 0 < ps)
    (hcol : col = (x - 9).fdiv ps) (hrow : row = (y - 9).fdiv ps)
    (hc0 : 0 ≤ col) (hcw : col < (img.get_width : Int))
    (hr0 : 0 ≤ row) (hrh : row < (img.get_height : Int)) :
    w.draw_pixel x y =
      some { w with image := some (Image.mk (img.pixels.set row.toNat
          ((img.pixels.getD row.toNat []).set col.toNat 1)) img.format) } := by
  have hh0 : img.get_height ≠ 0 := by
    intro h0
    rw [h0] at hps
    omega
  have hfd : Int.fdiv 300 (img.get_height : Int) = (ps : Int) := by
    rw [hps, show (300 : Int) = ((300 : Nat) : Int) from rfl, fdiv_natCast]
  have hh0i : (img.get_height : Int) ≠ 0 := Nat.cast_ne_zero.mpr hh0
  have hpsi : (ps : Int) ≠ 0 := by
    simpa using hps0.ne'
  have hrlt : row.toNat < img.pixels.length := by
    have h2 := (Int.toNat_lt (n := img.pixels.length) hr0).mpr hrh
    exact h2
  have hmem : img.pixels.getD row.toNat [] ∈ img.pixels := by
    rw [List.getD_eq_getElem?_getD, List.getElem?_eq_getElem hrlt]
    exact List.getElem_mem hrlt
  have hwlen : (img.pixels.getD row.toNat []).length = img.get_width :=
    hrect _ hmem
  have hclt : col < ((img.pixels.getD row.toNat []).length : Int) := by
    rw [hwlen]
    exact hcw
  unfold ImageWidget.draw_pixel
  rw [himg, hedit]
  simp only [Bool.true_eq_false, if_false, pyDiv, hfd, hh0i, hpsi, ite_false,
    if_neg, Image.to_array, Image.get_image_format]
  rw [← hcol, ← hrow]
  rw [if_neg (by push_neg; exact ⟨hcw, hrh⟩)]
  simp only [pyIdx_nonneg hr0
      (show row < (img.pixels.length : Int) by
        simpa [Image.get_height] using hrh),
    pySet, pyIdx_nonneg hc0 hclt, Option.map_some]
  rfl

lemma draw_pixel_some_inv {w w' : ImageWidget} {x y : Int}
    (h : w.draw_pixel x y = some w') :
    w' = w ∨
    ∃ img r c,
      w.image = some img ∧ w.edit_mode = true ∧
      (img.get_height : Int) ≠ 0 ∧
      Int.fdiv 300 (img.get_height : Int) ≠ 0 ∧
      pyIdx img.pixels.length
        ((y - 9).fdiv (Int.fdiv 300 (img.get_height : Int))) = some r ∧
      pyIdx (img.pixels.getD r []).length
        ((x - 9).fdiv (Int.fdiv 300 (img.get_height : Int))) = some c ∧
      ¬((x - 9).fdiv (Int.fdiv 300 (img.get_height : Int)) ≥
          (img.get_width : Int) ∨
        (y - 9).fdiv (Int.fdiv 300 (img.get_height : Int)) ≥
          (img.get_height : Int)) ∧
      w' = { w with image := some (Image.mk (img.pixels.set r
        ((img.pixels.getD r []).set c 1)) img.format) } := by
  unfold ImageWidget.draw_pixel at h
  split at h
  · exact Or.inl (Option.some.inj h).symm
  rename_i img himg
  split at h
  · exact Or.inl (Option.some.inj h).symm
  rename_i hedit
  have hedit' : w.edit_mode = true := by simpa using hedit
  split at h
  · exact Option.noConfusion h
  rename_i ps hps
  split at h
  case _ xpos ypos hxe hye =>
    split at h
    · exact Or.inl (Option.some.inj h).symm
    rename_i hbnd
    split at h
    · exact Option.noConfusion h
    rename_i r hr
    split at h
    · exact Option.noConfusion h
    rename_i newRow hnew
    right
    have hps' : (img.get_height : Int) ≠ 0 ∧ ps = Int.fdiv 300 img.get_height := by
      unfold pyDiv at hps
      split at hps
      · exact absurd hps (by simp)
      · exact ⟨by assumption, (Option.some.inj hps).symm⟩
    have hxe' : ps ≠ 0 ∧ xpos = (x - 9).fdiv ps := by
      unfold pyDiv at hxe
      split at hxe
      · exact absurd hxe (by simp)
      · exact ⟨by assumption, (Option.some.inj hxe).symm⟩
    have hye' : ps ≠ 0 ∧ ypos = (y - 9).fdiv ps := by
      unfold pyDiv at hye
      split at hye
      · exact absurd hye (by simp)
      · exact ⟨by assumption, (Option.some.inj hye).symm⟩
    obtain ⟨hh0, hpsval⟩ := hps'
    obtain ⟨hpsne, hxval⟩ := hxe'
    obtain ⟨-, hyval⟩ := hye'
    rw [hpsval] at hpsne hxval hyval
    subst hxval hyval
    obtain ⟨c, hc, hrowval⟩ := Option.map_eq_some'.mp hnew
    refine ⟨img, r, c, himg, hedit', hh0, hpsne, ?_, ?_, ?_, ?_⟩
    · simpa [Image.to_array] using hr
    · simpa [Image.to_array, pySet] using hc
    · exact hbnd
    · rw [← (Option.some.inj h)]
      simp [Image.to_array, Image.get_image_format, ← hrowval]
  case _ o1 o2 hcatch =>
    exact Option.noConfusion h

lemma set_cell_getD_other {pix : List (List Nat)} {r c : Nat}
    (hr : r < pix.length) (r0 c0 : Nat) (hne : ¬(r0 = r ∧ c0 = c)) :
    ((pix.set r ((pix.getD r []).set c 1)).getD r0 [])[c0]? =
      (pix.getD r0 [])[c0]? := by
  by_cases h1 : r0 = r
  · subst h1
    rw [getD_set_self hr]
    have h2 : c ≠ c0 := fun hc => hne ⟨rfl, hc.symm⟩
    exact List.getElem?_set_ne h2
  · rw [getD_set_ne (fun he => h1 he.symm)]

lemma set_cell_getD_self {pix : List (List Nat)} {r c : Nat}
    (hr : r < pix.length) (hc : c < (pix.getD r []).length) :
    ((pix.set r ((pix.getD r []).set c 1)).getD r [])[c]? = some 1 := by
  rw [getD_set_self hr]
  exact List.getElem?_set_self hc

lemma draw_pixel_idem {w w' : ImageWidget} {x y : Int}
    (h : w.draw_pixel x y = some w') : w'.draw_pixel x y = some w' := by
  rcases draw_pixel_some_inv h with rfl |
    ⟨img, r, c, himg, hedit, hh0, hpsne, hyidx, hxidx, hbnd, rfl⟩
  · exact h
  · have hrlen : r < img.pixels.length := pyIdx_lt hyidx
    have hnrlen : ((img.pixels.getD r []).set c 1).length =
        (img.pixels.getD r []).length := List.length_set _ _ _
    have hlen2 : (img.pixels.set r ((img.pixels.getD r []).set c 1)).length =
        img.pixels.length := List.length_set _ _ _
    have hw2 : ((img.pixels.set r ((img.pixels.getD r []).set c 1)).headD
        []).length = (img.pixels.headD []).length := headD_length_set hnrlen
    have hgd : (img.pixels.set r ((img.pixels.getD r []).set c 1)).getD r [] =
        (img.pixels.getD r []).set c 1 := getD_set_self hrlen
    simp only [Image.get_height, Image.get_width,
      Image.to_array] at hh0 hpsne hyidx hxidx hbnd
    unfold ImageWidget.draw_pixel
    simp only [Image.get_height, Image.get_width, Image.to_array,
      Image.get_image_format, hedit, Bool.true_eq_false, if_false, hlen2, hw2,
      pyDiv, hh0, hpsne, ite_false, hyidx, hgd, pySet, hnrlen, hxidx,
      Option.map_some, List.set_set, if_neg hbnd]
    simp [List.set_set]

lemma draw_pixel_edit_mode {w w' : ImageWidget} {x y : Int}
    (h : w.draw_pixel x y = some w') : w'.edit_mode = w.edit_mode := by
  rcases draw_pixel_some_inv h with rfl |
    ⟨img, r, c, _, _, _, _, _, _, _, rfl⟩ <;> rfl

lemma draw_pixel_getPixel_mono {w w' : ImageWidget} {x y : Int}
    (h : w.draw_pixel x y = some w') (r0 c0 : Nat) :
    w'.getPixel r0 c0 = w.getPixel r0 c0 ∨ w'.getPixel r0 c0 = some 1 := by
  rcases draw_pixel_some_inv h with rfl |
    ⟨img, r, c, himg, hedit, _, _, hyidx, hxidx, _, rfl⟩
  · exact Or.inl rfl
  · have hrlen : r < img.pixels.length := pyIdx_lt hyidx
    have hclen : c < (img.pixels.getD r []).length := pyIdx_lt hxidx
    by_cases hne : r0 = r ∧ c0 = c
    · obtain ⟨rfl, rfl⟩ := hne
      right
      simp only [ImageWidget.getPixel]
      exact set_cell_getD_self hrlen hclen
    · left
      simp only [ImageWidget.getPixel, himg]
      exact set_cell_getD_other hrlen r0 c0 hne

lemma runPointerEvents_mono {w w' : ImageWidget} {evs : List (Int × Int)}
    (h : runPointerEvents w evs = some w') (r0 c0 : Nat) :
    w'.getPixel r0 c0 = w.getPixel r0 c0 ∨ w'.getPixel r0 c0 = some 1 := by
  induction evs generalizing w with
  | nil =>
    simp only [runPointerEvents] at h
    rw [← Option.some.inj h]
    exact Or.inl rfl
  | cons ev rest ih =>
    obtain ⟨ex, ey⟩ := ev
    cases hd : w.draw_pixel ex ey with
    | none =>
      simp only [runPointerEvents, hd] at h
      exact absurd h (by simp)
    | some w1 =>
      simp only [runPointerEvents, hd] at h
      have h1 := draw_pixel_getPixel_mono hd r0 c0
      rcases ih h with h2 | h2
      · rw [h2]
        exact h1
      · exact Or.inr h2

lemma step_edit_mode_mono (ff : String → Except String Image)
    (w : ImageWidget) (e : ShellEvent) (h : w.edit_mode = true) :
    (step ff w e).edit_mode = true := by
  cases e with
  | newFile a wd ht fmt =>
    cases a <;>
      simp [step, new_file_action, ImageWidget.set_edit_mode,
        ImageWidget.set_image, h]
  | openFile fp =>
    cases fp with
    | none => simpa [step, open_file_action] using h
    | some p =>
      cases hf : ff p <;>
        simp [step, open_file_action, hf, ImageWidget.set_image, h]
  | saveFile fp => simpa [step, save_file_action] using h
  | pointer px py =>
    cases hd : w.draw_pixel px py with
    | none => simpa [step, hd] using h
    | some w1 =>
      simp only [step, hd, Option.getD_some]
      rw [draw_pixel_edit_mode hd]
      exact h

lemma run_edit_mode_mono (ff : String → Except String Image)
    (w : ImageWidget) (evs : List ShellEvent) (h : w.edit_mode = true) :
    (run ff w evs).edit_mode = true := by
  induction evs generalizing w with
  | nil => exact h
  | cons e rest ih =>
    simp only [run, List.foldl_cons]
    exact ih (step ff w e) (step_edit_mode_mono ff w e h)

lemma step_enable_only_new (ff : String → Except String Image)
    (w : ImageWidget) (e : ShellEvent) (h0 : w.edit_mode = false)
    (h1 : (step ff w e).edit_mode = true) :
    ∃ wd ht fmt, e = ShellEvent.newFile true wd ht fmt := by
  cases e with
  | newFile a wd ht fmt =>
    cases a with
    | false =>
      simp [step, new_file_action] at h1
      rw [h0] at h1
      exact absurd h1 (by simp)
    | true => exact ⟨wd, ht, fmt, rfl⟩
  | openFile fp =>
    exfalso
    have : (step ff w (ShellEvent.openFile fp)).edit_mode = false := by
      cases fp with
      | none => simpa [step, open_file_action] using h0
      | some p =>
        cases hf : ff p <;>
          simp [step, open_file_action, hf, ImageWidget.set_image, h0]
    rw [this] at h1
    exact absurd h1 (by simp)
  | saveFile fp =>
    exfalso
    have : (step ff w (ShellEvent.saveFile fp)).edit_mode = false := by
      simpa [step, save_file_action] using h0
    rw [this] at h1
    exact absurd h1 (by simp)
  | pointer px py =>
    exfalso
    have : (step ff w (ShellEvent.pointer px py)).edit_mode = false := by
      cases hd : w.draw_pixel px py with
      | none => simpa [step, hd] using h0
      | some w1 =>
        simp only [step, hd, Option.getD_some]
        rw [draw_pixel_edit_mode hd]
        exact h0
    rw [this] at h1
    exact absurd h1 (by simp)

/-! ## Claim theorems -/

/-- C1: the claim (out-of-range translated coordinates, including negative
ones, are a no-op) fails on the code.  On a 3×3 all-zero image in edit mode,
the pointer event at display (0, 150) translates to col = (0−9)//100 = −1,
which is outside [0, width); the handler's bounds check only tests
`col ≥ width` / `row ≥ height`, so Python negative indexing sets pixel
(1, 2) to 1 and the model changes. -/
theorem c1_out_of_range_click_mutates_model :
    (ImageWidget.mk (some (Image.mk [[0,0,0],[0,0,0],[0,0,0]] 0))
        true).draw_pixel 0 150 =
      some (ImageWidget.mk (some (Image.mk [[0,0,0],[0,0,1],[0,0,0]] 0))
        true) ∧
    Int.fdiv (0 - 9) (Int.fdiv 300 3) < 0 ∧
    (ImageWidget.mk (some (Image.mk [[0,0,0],[0,0,0],[0,0,0]] 0))
        true).draw_pixel 0 150 ≠
      some (ImageWidget.mk (some (Image.mk [[0,0,0],[0,0,0],[0,0,0]] 0))
        true) := by
  decide

/-- C2: with an image loaded and edit mode on, the handler translates the
display coordinate exactly by `pixel_size = 300 / height` (integer
division), `col = (x − 9) // pixel_size`, `row = (y − 9) // pixel_size`
(Python floor division, no rounding correction), and paints that cell. -/
theorem c2_coordinate_translation (w : ImageWidget) (img : Image)
    (x y col row : Int) (ps : Nat)
    (himg : w.image = some img) (hedit : w.edit_mode = true)
    (hrect : img.Rectangular)
    (hps : ps = 300 / img.get_height) (hps0 : 0 < ps)
    (hcol : col = (x - 9).fdiv ps) (hrow : row = (y - 9).fdiv ps)
    (hc0 : 0 ≤ col) (hcw : col < (img.get_width : Int))
    (hr0 : 0 ≤ row) (hrh : row < (img.get_height : Int)) :
    w.draw_pixel x y =
      some { w with image := some (Image.mk (img.pixels.set row.toNat
          ((img.pixels.getD row.toNat []).set col.toNat 1)) img.format) } :=
  draw_pixel_paint w img x y col row ps himg hedit hrect hps hps0 hcol hrow
    hc0 hcw hr0 hrh

/-- C2 witness: on a 2×2 image, `pixel_size = 150`; the event at (160, 10)
translates to col = 151 // 150 = 1, row = 1 // 150 = 0, and pixel (0, 1) is
painted. -/
theorem c2_coordinate_translation_witness :
    (ImageWidget.mk (some (Image.mk [[0,0],[0,0]] 0)) true).draw_pixel 160 10 =
      some (ImageWidget.mk (some (Image.mk [[0,1],[0,0]] 0)) true) := by
  have h := c2_coordinate_translation
    (ImageWidget.mk (some (Image.mk [[0,0],[0,0]] 0)) true)
    (Image.mk [[0,0],[0,0]] 0) 160 10 1 0 150 rfl rfl (by decide) (by decide)
    (by decide) (by decide) (by decide) (by decide) (by decide) (by decide)
    (by decide)
  rw [h]
  decide

/-- C3: the paint operation is idempotent: if one pointer event maps the
widget state to `w2`, replaying the same event on `w2` yields `w2` again. -/
theorem c3_paint_idempotent (w w2 : ImageWidget) (x y : Int)
    (h : w.draw_pixel x y = some w2) : w2.draw_pixel x y = some w2 :=
  draw_pixel_idem h

/-- C3 witness: painting (1, 0) of a 3×3 image twice equals painting once. -/
theorem c3_paint_idempotent_witness :
    (ImageWidget.mk (some (Image.mk [[0,0,0],[1,0,0],[0,0,0]] 0))
        true).draw_pixel 50 150 =
      some (ImageWidget.mk (some (Image.mk [[0,0,0],[1,0,0],[0,0,0]] 0))
        true) :=
  c3_paint_idempotent
    (ImageWidget.mk (some (Image.mk [[0,0,0],[0,0,0],[0,0,0]] 0)) true)
    (ImageWidget.mk (some (Image.mk [[0,0,0],[1,0,0],[0,0,0]] 0)) true)
    50 150 (by decide)

/-- C4: with no image loaded or edit mode off, the pointer-event handler
raises nothing and returns the state unchanged. -/
theorem c4_edit_gating (w : ImageWidget) (x y : Int)
    (h : w.image = none ∨ w.edit_mode = false) :
    w.draw_pixel x y = some w := by
  rcases h with h | h
  · simp [ImageWidget.draw_pixel, h]
  · cases hi : w.image <;> simp [ImageWidget.draw_pixel, hi, h]

/-- C4 witness: a pointer event with no image loaded is a no-op. -/
theorem c4_edit_gating_witness :
    (ImageWidget.mk none true).draw_pixel 0 0 =
      some (ImageWidget.mk none true) :=
  c4_edit_gating (ImageWidget.mk none true) 0 0 (Or.inl rfl)

/-- C5: an in-bounds paint sets the addressed pixel to the foreground
value 1, and over any sequence of pointer events every pixel is either left
unchanged or set to 1 — the pointer path never writes a pixel back to 0. -/
theorem c5_paint_foreground_no_erase :
    (∀ (w : ImageWidget) (img : Image) (x y col row : Int) (ps : Nat),
      w.image = some img → w.edit_mode = true → img.Rectangular →
      ps = 300 / img.get_height → 0 < ps →
      col = (x - 9).fdiv ps → row = (y - 9).fdiv ps →
      0 ≤ col → col < (img.get_width : Int) →
      0 ≤ row → row < (img.get_height : Int) →
      ∃ w2, w.draw_pixel x y = some w2 ∧
        w2.getPixel row.toNat col.toNat = some 1) ∧
    (∀ (w w2 : ImageWidget) (evs : List (Int × Int)),
      runPointerEvents w evs = some w2 →
      ∀ r0 c0 : Nat, w2.getPixel r0 c0 = w.getPixel r0 c0 ∨
        w2.getPixel r0 c0 = some 1) := by
  constructor
  · intro w img x y col row ps himg hedit hrect hps hps0 hcol hrow hc0 hcw
      hr0 hrh
    refine ⟨_, draw_pixel_paint w img x y col row ps himg hedit hrect hps
      hps0 hcol hrow hc0 hcw hr0 hrh, ?_⟩
    have hrlt : row.toNat < img.pixels.length := (Int.toNat_lt hr0).mpr hrh
    have hmem : img.pixels.getD row.toNat [] ∈ img.pixels := by
      rw [List.getD_eq_getElem?_getD, List.getElem?_eq_getElem hrlt]
      exact List.getElem_mem hrlt
    have hclt : col.toNat < (img.pixels.getD row.toNat []).length := by
      rw [hrect _ hmem]
      exact (Int.toNat_lt hc0).mpr hcw
    simp only [ImageWidget.getPixel]
    exact set_cell_getD_self hrlt hclt
  · intro w w2 evs h r0 c0
    exact runPointerEvents_mono h r0 c0

/-- C5 witness: the event at (160, 10) on a 2×2 image paints pixel (0, 1)
with 1. -/
theorem c5_paint_foreground_no_erase_witness :
    ∃ w2, (ImageWidget.mk (some (Image.mk [[0,0],[0,0]] 0))
        true).draw_pixel 160 10 = some w2 ∧
      w2.getPixel (0 : Int).toNat (1 : Int).toNat = some 1 :=
  c5_paint_foreground_no_erase.1
    (ImageWidget.mk (some (Image.mk [[0,0],[0,0]] 0)) true)
    (Image.mk [[0,0],[0,0]] 0) 160 10 1 0 150 rfl rfl (by decide) (by decide)
    (by decide) (by decide) (by decide) (by decide) (by decide) (by decide)
    (by decide)

/-- C6: on an open-file request, a decode error leaves the widget (and any
previously loaded image) untouched; the image is replaced only when
decoding succeeds. -/
theorem c6_load_failure_leaves_widget_untouched
    (from_file : String → Except String Image) (w : ImageWidget)
    (p : String) :
    (∀ e, from_file p = Except.error e →
      open_file_action from_file w (some p) = w) ∧
    (∀ img, from_file p = Except.ok img →
      open_file_action from_file w (some p) = w.set_image img) := by
  constructor
  · intro e he
    simp [open_file_action, he]
  · intro img hi
    simp [open_file_action, hi]

/-- C6 witness: a decoder that fails with `MalformedHeader` leaves the
previously loaded 1×1 image in place. -/
theorem c6_load_failure_witness :
    open_file_action (fun _ => Except.error "MalformedHeader")
      (ImageWidget.mk (some (Image.mk [[0]] 0)) false) (some "f.limg") =
      ImageWidget.mk (some (Image.mk [[0]] 0)) false :=
  (c6_load_failure_leaves_widget_untouched
    (fun _ => Except.error "MalformedHeader")
    (ImageWidget.mk (some (Image.mk [[0]] 0)) false) "f.limg").1
    "MalformedHeader" rfl

/-- C7: an accepted new-image request with black-and-white format and
dimensions in 1..=65535 builds a grid of exactly `height` rows of exactly
`width` zeros each. -/
theorem c7_blank_canvas_all_zero (w : ImageWidget) (wd ht : Nat)
    (hw1 : 1 ≤ wd) (hw2 : wd ≤ 65535) (hh1 : 1 ≤ ht) (hh2 : ht ≤ 65535) :
    ∃ img, (new_file_action w true wd ht Image.Format_BW).image = some img ∧
      img.pixels.length = ht ∧
      ∀ row ∈ img.pixels, row.length = wd ∧ ∀ v ∈ row, v = 0 := by
  refine ⟨Image.mk ((List.range ht).map
      (fun _ => (List.range wd).map (fun _ => 0))) Image.Format_BW, ?_, by
    simp, ?_⟩
  · simp [new_file_action, ImageWidget.set_image, ImageWidget.set_edit_mode]
  · intro row hrow
    simp only [List.mem_map] at hrow
    obtain ⟨i, -, hi⟩ := hrow
    subst hi
    refine ⟨by simp, ?_⟩
    intro v hv
    simp only [List.mem_map] at hv
    obtain ⟨j, -, hj⟩ := hv
    exact hj.symm

/-- C7 witness: a 2×1 request yields one row [0, 0]. -/
theorem c7_blank_canvas_witness :
    ∃ img, (new_file_action (ImageWidget.mk none false) true 2 1
        Image.Format_BW).image = some img ∧
      img.pixels.length = 1 ∧
      ∀ row ∈ img.pixels, row.length = 2 ∧ ∀ v ∈ row, v = 0 :=
  c7_blank_canvas_all_zero (ImageWidget.mk none false) 2 1 (by decide)
    (by decide) (by decide) (by decide)

/-- C8: once edit mode is true it stays true under every shell event
sequence; a step that turns edit mode from false to true can only be an
accepted new-file event; and every accepted new-file event does enable
edit mode. -/
theorem c8_edit_mode_never_disabled :
    (∀ (ff : String → Except String Image) (w : ImageWidget)
      (evs : List ShellEvent), w.edit_mode = true →
      (run ff w evs).edit_mode = true) ∧
    (∀ (ff : String → Except String Image) (w : ImageWidget)
      (e : ShellEvent), w.edit_mode = false →
      (step ff w e).edit_mode = true →
      ∃ wd ht fmt, e = ShellEvent.newFile true wd ht fmt) ∧
    (∀ (ff : String → Except String Image) (w : ImageWidget)
      (wd ht fmt : Nat),
      (step ff w (ShellEvent.newFile true wd ht fmt)).edit_mode = true) := by
  refine ⟨fun ff w evs h => run_edit_mode_mono ff w evs h,
    fun ff w e h0 h1 => step_enable_only_new ff w e h0 h1,
    fun ff w wd ht fmt => ?_⟩
  simp [step, new_file_action, ImageWidget.set_edit_mode,
    ImageWidget.set_image]

/-- C8 witness: edit mode stays on across a save and a pointer event. -/
theorem c8_edit_mode_witness :
    (run (fun _ => Except.error "e") (ImageWidget.mk none true)
      [ShellEvent.saveFile none, ShellEvent.pointer 3 4]).edit_mode = true :=
  c8_edit_mode_never_disabled.1 (fun _ => Except.error "e")
    (ImageWidget.mk none true)
    [ShellEvent.saveFile none, ShellEvent.pointer 3 4] rfl

/-- C9: every width and height the new-file dialog can report lies in
1..=65535: the spin boxes clamp to their configured range. -/
theorem c9_dialog_dimension_range (raw1 raw2 : Int) :
    1 ≤ NewFileDialog.get_image_width raw1 ∧
    NewFileDialog.get_image_width raw1 ≤ 65535 ∧
    1 ≤ NewFileDialog.get_image_height raw2 ∧
    NewFileDialog.get_image_height raw2 ≤ 65535 := by
  simp only [NewFileDialog.get_image_width, NewFileDialog.get_image_height,
    NewFileDialog.width_spinbox, NewFileDialog.height_spinbox, QSpinBox.value]
  omega

/-- C10: an in-bounds paint preserves width, height, format and edit mode,
and changes no pixel other than the addressed cell. -/
theorem c10_paint_frame_effect (w : ImageWidget) (img : Image)
    (x y col row : Int) (ps : Nat)
    (himg : w.image = some img) (hedit : w.edit_mode = true)
    (hrect : img.Rectangular)
    (hps : ps = 300 / img.get_height) (hps0 : 0 < ps)
    (hcol : col = (x - 9).fdiv ps) (hrow : row = (y - 9).fdiv ps)
    (hc0 : 0 ≤ col) (hcw : col < (img.get_width : Int))
    (hr0 : 0 ≤ row) (hrh : row < (img.get_height : Int)) :
    ∃ w2 img2, w.draw_pixel x y = some w2 ∧
      w2.edit_mode = w.edit_mode ∧ w2.image = some img2 ∧
      img2.get_width = img.get_width ∧
      img2.get_height = img.get_height ∧
      img2.get_image_format = img.get_image_format ∧
      ∀ r0 c0 : Nat, ¬(r0 = row.toNat ∧ c0 = col.toNat) →
        w2.getPixel r0 c0 = w.getPixel r0 c0 := by
  have hdp := draw_pixel_paint w img x y col row ps himg hedit hrect hps
    hps0 hcol hrow hc0 hcw hr0 hrh
  have hrlt : row.toNat < img.pixels.length := (Int.toNat_lt hr0).mpr hrh
  have hnr : ((img.pixels.getD row.toNat []).set col.toNat 1).length =
      (img.pixels.getD row.toNat []).length := List.length_set _ _ _
  refine ⟨_, _, hdp, rfl, rfl, ?_, ?_, rfl, ?_⟩
  · simp only [Image.get_width]
    exact headD_length_set hnr
  · simp only [Image.get_height]
    exact List.length_set _ _ _
  · intro r0 c0 hne
    simp only [ImageWidget.getPixel, himg]
    exact set_cell_getD_other hrlt r0 c0 hne

/-- C10 witness: the paint at display (160, 10) on a 2×2 image keeps
dimensions, format, edit mode and all pixels other than (0, 1). -/
theorem c10_paint_frame_effect_witness :
    ∃ w2 img2, (ImageWidget.mk (some (Image.mk [[0,0],[0,0]] 0))
        true).draw_pixel 160 10 = some w2 ∧
      w2.edit_mode = (ImageWidget.mk (some (Image.mk [[0,0],[0,0]] 0))
        true).edit_mode ∧ w2.image = some img2 ∧
      img2.get_width = (Image.mk [[0,0],[0,0]] 0).get_width ∧
      img2.get_height = (Image.mk [[0,0],[0,0]] 0).get_height ∧
      img2.get_image_format = (Image.mk [[0,0],[0,0]] 0).get_image_format ∧
      ∀ r0 c0 : Nat, ¬(r0 = (0 : Int).toNat ∧ c0 = (1 : Int).toNat) →
        w2.getPixel r0 c0 = (ImageWidget.mk (some (Image.mk [[0,0],[0,0]] 0))
          true).getPixel r0 c0 :=
  c10_paint_frame_effect
    (ImageWidget.mk (some (Image.mk [[0,0],[0,0]] 0)) true)
    (Image.mk [[0,0],[0,0]] 0) 160 10 1 0 150 rfl rfl (by decide) (by decide)
    (by decide) (by decide) (by decide) (by decide) (by decide) (by decide)
    (by decide)

end LibimgEditor




